import Mathlib

/-!
Verification of the rule domain model and resolution engine of
cloudflare-mail-manager against its specification.

The definitions below are a shallow embedding of `src/cloudflare_api.rs` and
`src/command.rs`: the typed routing actions and matchers, free-text parsing and
display rendering, the serde wire format of matchers, zone selection, the
rule-creation matcher resolution, the random local-part generator, the
rule-deletion resolver with its fuzzy match, and the list-command sort.
Provider calls are modelled by passing their results (the `result` field of a
response, `None` when the provider returned no result) as explicit arguments.
-/

/-- `EmailRoutingRuleActionType` of `cloudflare_api.rs`: Drop, Forward to a
list of destination addresses, or Worker running a list of scripts. -/
inductive EmailRoutingRuleActionType where
  | drop
  | forward (value : List String)
  | worker (value : List String)
deriving DecidableEq

/-- `EmailRoutingRuleAction` of `cloudflare_api.rs`: a wrapper holding the
action variant (the Rust struct exists for serde flattening). -/
structure EmailRoutingRuleAction where
  action_type : EmailRoutingRuleActionType
deriving DecidableEq

/-- `EmailRoutingRuleMatcherType` of `cloudflare_api.rs`: match-all or a
literal address match. -/
inductive EmailRoutingRuleMatcherType where
  | all
  | literal (value : String)
deriving DecidableEq

/-- `EmailRoutingRuleMatcher` of `cloudflare_api.rs`. -/
structure EmailRoutingRuleMatcher where
  matcher_type : EmailRoutingRuleMatcherType
deriving DecidableEq

/-- `EmailRoutingRule` of `cloudflare_api.rs`: priority is `Option<usize>`,
modelled as `Option Nat`. -/
structure EmailRoutingRule where
  id : String
  actions : List EmailRoutingRuleAction
  enabled : Bool
  matchers : List EmailRoutingRuleMatcher
  name : Option String
  priority : Option Nat
deriving DecidableEq

/-- `ZoneAccount` of `cloudflare_api.rs`. -/
structure ZoneAccount where
  id : String
  name : String
deriving DecidableEq

/-- `Zone` of `cloudflare_api.rs`. -/
structure Zone where
  id : String
  account : ZoneAccount
deriving DecidableEq

/-- The resolution-precondition failures of `command.rs` (`bail!` sites),
named as in the specification's error taxonomy. -/
inductive CmdError where
  | noZoneAvailable
  | routingSettingsUnavailable
deriving DecidableEq

/-- Rust `char::to_lowercase` as used on the ASCII identifiers and addresses
this tool handles, per character (Lean's `Char.toLower`). -/
def lower_chars (s : String) : List Char :=
  s.toList.map Char.toLower

/-- Rust `str::contains(needle)`: `needle` occurs as a contiguous substring
of the second argument. -/
def contains_sublist (needle : List Char) : List Char → Bool
  | [] => needle.isEmpty
  | c :: rest => needle.isPrefixOf (c :: rest) || contains_sublist needle rest

/-- `string_kinda_matches` of `command.rs` (`handle_delete_rule`):
`other.to_lowercase().contains(input.to_lowercase())`. -/
def string_kinda_matches (input other : String) : Bool :=
  contains_sublist (lower_chars input) (lower_chars other)

/-- Rust `str::contains` on whole strings (used for `value.contains("@")`
in `handle_create_rule`). -/
def string_contains (hay needle : String) : Bool :=
  contains_sublist needle.toList hay.toList

/-- The filter predicate of `handle_delete_rule`: the rule's id kinda-matches
the fragment, or some matcher does; an `All` matcher never matches
("catch-all rules can't match"), a `Literal` matches by its address value. -/
def rule_matches (rule_identifier : String) (rule : EmailRoutingRule) : Bool :=
  string_kinda_matches rule_identifier rule.id ||
    rule.matchers.any (fun matcher =>
      match matcher.matcher_type with
      | EmailRoutingRuleMatcherType.all => false
      | EmailRoutingRuleMatcherType.literal value =>
          string_kinda_matches rule_identifier value)

/-- The way `handle_delete_rule` resolves the user fragment before calling
the provider: proceed with an id, or stop with a report. -/
inductive DeleteResolution where
  | proceed (rule_identifier : String)
  | reportNotFound
  | reportAmbiguous (matched : List EmailRoutingRule)
deriving DecidableEq

/-- The resolution step of `handle_delete_rule`: with no fetched result the
fragment itself is used as the rule id; otherwise the matched rules decide
between not-found, a unique id, and ambiguity (the `match` on
`matched_rules.as_slice()`). -/
def resolve_delete_identifier (rule_identifier : String)
    (result : Option (List EmailRoutingRule)) : DeleteResolution :=
  match result with
  | none => DeleteResolution.proceed rule_identifier
  | some rules =>
    match rules.filter (fun rule => rule_matches rule_identifier rule) with
    | [] => DeleteResolution.reportNotFound
    | [rule] => DeleteResolution.proceed rule.id
    | matched => DeleteResolution.reportAmbiguous matched

/-- Observable outcome of one `handle_delete_rule` run: which rule id the
delete call was issued with (if any), and whether the run ended in an error
(`bail!`). Reported not-found/ambiguity outcomes return `Ok(())`. -/
structure DeleteTrace where
  deletedId : Option String
  errored : Bool
deriving DecidableEq

/-- `handle_delete_rule` of `command.rs`, with the two provider calls made
explicit: `list_result` is the fetched rule list's `result` field and
`delete_call id` the delete response (`some success` for a response with the
given `success` flag, `none` for a failed call). -/
def handle_delete_rule (rule_identifier : String)
    (list_result : Option (List EmailRoutingRule))
    (delete_call : String → Option Bool) : DeleteTrace :=
  match resolve_delete_identifier rule_identifier list_result with
  | DeleteResolution.reportNotFound => ⟨none, false⟩
  | DeleteResolution.reportAmbiguous _ => ⟨none, false⟩
  | DeleteResolution.proceed id =>
    match delete_call id with
    | some true => ⟨some id, false⟩
    | some false => ⟨some id, true⟩
    | none => ⟨some id, true⟩

/-- `select_first_zone` of `command.rs`: `result.map(|mut zones|
zones.pop()).flatten().context("No zone found")` — `Vec::pop` takes the
last element. -/
def select_first_zone (result : Option (List Zone)) : Except CmdError Zone :=
  match result.bind (fun zones => zones.getLast?) with
  | some zone => Except.ok zone
  | none => Except.error CmdError.noZoneAvailable

/-- The `Some(matcher)` arm of matcher resolution in `handle_create_rule`:
`All` is kept, a literal containing `"@"` is kept, a literal without `"@"`
is completed with the domain fetched from the routing settings
(`domain_lookup` is the outcome of `get_email_domain`). -/
def resolve_supplied_matcher (matcher : EmailRoutingRuleMatcher)
    (domain_lookup : Except CmdError String) :
    Except CmdError EmailRoutingRuleMatcher :=
  match matcher.matcher_type with
  | EmailRoutingRuleMatcherType.all => Except.ok matcher
  | EmailRoutingRuleMatcherType.literal value =>
    if string_contains value "@" then Except.ok matcher
    else
      domain_lookup.map (fun domain =>
        ⟨EmailRoutingRuleMatcherType.literal (value ++ "@" ++ domain)⟩)

/-- The alphabet the random local-part is drawn from in
`handle_create_rule`. -/
def username_alphabet : List Char :=
  "abcdefghijklmnopqrstuvwxyz0123456789".toList

/-- The reservoir-replacement loop of rand's `IteratorRandom::choose_multiple`:
for the `i`-th element past the initial reservoir, a random index `rng i` is
drawn and, when it lands inside the reservoir, that slot is replaced
(`List.set` is the identity for an out-of-range index, as is the Rust
`if let Some(slot) = reservoir.get_mut(k)`). `rng` stands for the drawn
indices, arbitrary so that every possible random behaviour is covered. -/
def reservoir_fold (rng : Nat → Nat) : Nat → List Char → List Char → List Char
  | _, reservoir, [] => reservoir
  | i, reservoir, c :: rest =>
      reservoir_fold rng (i + 1) (reservoir.set (rng i) c) rest

/-- rand's `IteratorRandom::choose_multiple(rng, amount)` on a list source:
the first `amount` elements seed the reservoir; if the source had at least
`amount` elements, each later element may replace one slot. -/
def choose_multiple (rng : Nat → Nat) (source : List Char) (amount : Nat) :
    List Char :=
  let reservoir := source.take amount
  if reservoir.length = amount then
    reservoir_fold rng 0 reservoir (source.drop amount)
  else
    reservoir

/-- `random_username` of `handle_create_rule`: 16 characters chosen from the
lowercase-alphanumeric alphabet by `choose_multiple`, collected into a
string. -/
def random_username (rng : Nat → Nat) : String :=
  String.mk (choose_multiple rng username_alphabet 16)

/-- Rust `[String]::join(sep)` as used by the `Display` impls in
`command.rs`. -/
def join_strings (sep : String) : List String → String
  | [] => ""
  | [s] => s
  | s :: rest => s ++ sep ++ join_strings sep rest

/-- The `Display` impl for `EmailRoutingRuleAction` in `command.rs`. -/
def action_display (action : EmailRoutingRuleAction) : String :=
  match action.action_type with
  | EmailRoutingRuleActionType.drop => "Drop"
  | EmailRoutingRuleActionType.forward value =>
      "Forward to " ++ join_strings ", " value
  | EmailRoutingRuleActionType.worker value =>
      "Worker (" ++ join_strings ", " value ++ ")"

/-- The `FromStr` impl for `EmailRoutingRuleAction` in `cloudflare_api.rs`:
the exact text `"drop"` parses to `Drop`, anything else to a
single-destination `Forward`; the impl never returns an error. -/
def action_from_str (s : String) : Except String EmailRoutingRuleAction :=
  if s = "drop" then Except.ok ⟨EmailRoutingRuleActionType.drop⟩
  else Except.ok ⟨EmailRoutingRuleActionType.forward [s]⟩

/-- The serde serialization of `EmailRoutingRuleMatcherType` as a list of
JSON object fields (all values are strings here): the internally-tagged
`type` field, and for `Literal` the custom `serialize_literal` emitting
`value` followed by the fixed `field = "to"` discriminator. -/
def serialize_matcher_type : EmailRoutingRuleMatcherType → List (String × String)
  | EmailRoutingRuleMatcherType.all => [("type", "all")]
  | EmailRoutingRuleMatcherType.literal value =>
      [("type", "literal"), ("value", value), ("field", "to")]

/-- The derived serde deserialization of `EmailRoutingRuleMatcherType`: an
internally-tagged enum reads the `type` tag, reads `value` for the literal
variant, and ignores every other field (serde's default; in particular the
`field` discriminator is never read back). -/
def deserialize_matcher_type (fields : List (String × String)) :
    Option EmailRoutingRuleMatcherType :=
  match fields.lookup "type" with
  | some "all" => some EmailRoutingRuleMatcherType.all
  | some "literal" =>
      (fields.lookup "value").map (fun value =>
        EmailRoutingRuleMatcherType.literal value)
  | _ => none

/-- `rule.priority.unwrap_or(0)` of `handle_list_rules`. -/
def rule_priority (rule : EmailRoutingRule) : Nat :=
  rule.priority.getD 0

/-- The sort of `handle_list_rules`:
`rules.sort_by_key(|rule| Reverse(rule.priority.unwrap_or(0)))`, a stable
sort ascending in `Reverse(priority)`, i.e. descending in priority (modelled
by a stable insertion sort on the flipped relation). -/
def handle_list_rules_sort (rules : List EmailRoutingRule) :
    List EmailRoutingRule :=
  List.insertionSort (fun a b => rule_priority b ≤ rule_priority a) rules

/-- Sample rule r1 of the specification's deletion example. -/
def sample_rule_a : EmailRoutingRule :=
  ⟨"r1", [], true, [⟨EmailRoutingRuleMatcherType.literal "a@x.com"⟩], none, none⟩

/-- Sample rule r2 of the specification's deletion example. -/
def sample_rule_b : EmailRoutingRule :=
  ⟨"r2", [], true, [⟨EmailRoutingRuleMatcherType.literal "b@x.com"⟩], none, none⟩

/-- Four rules with priorities None, 5, 0, 3 — the listing example of the
specification. -/
def priority_sample_rules : List EmailRoutingRule :=
  [⟨"pn", [], true, [], none, none⟩,
   ⟨"p5", [], true, [], none, some 5⟩,
   ⟨"p0", [], true, [], none, some 0⟩,
   ⟨"p3", [], true, [], none, some 3⟩]

instance {ε α : Type} [DecidableEq ε] [DecidableEq α] :
    DecidableEq (Except ε α) := fun x y =>
  match x, y with
  | Except.error e, Except.error f =>
    if h : e = f then isTrue (by rw [h])
    else isFalse (by intro hc; cases hc; exact h rfl)
  | Except.ok a, Except.ok b =>
    if h : a = b then isTrue (by rw [h])
    else isFalse (by intro hc; cases hc; exact h rfl)
  | Except.error _, Except.ok _ => isFalse (by intro hc; cases hc)
  | Except.ok _, Except.error _ => isFalse (by intro hc; cases hc)

/-- `contains_sublist` decides exactly contiguous-substring occurrence. -/
theorem contains_sublist_iff (needle : List Char) :
    ∀ hay : List Char, contains_sublist needle hay = true ↔ needle <:+: hay := by
  intro hay
  induction hay with
  | nil =>
    simp [contains_sublist, List.isEmpty_iff, List.infix_nil]
  | cons c rest ih =>
    simp [contains_sublist, List.infix_cons_iff, ih]

/-- Every string kinda-matches against the empty fragment. -/
theorem contains_sublist_nil (hay : List Char) :
    contains_sublist [] hay = true := by
  cases hay with
  | nil => rfl
  | cons c rest => rfl

/-- C6: zone selection takes exactly the last zone of a non-empty fetched
list and fails with `NoZoneAvailable` on the empty list. -/
theorem c6_zone_selection (zones : List Zone) (z : Zone) :
    select_first_zone (some (zones ++ [z])) = Except.ok z
    ∧ select_first_zone (some ([] : List Zone)) =
        Except.error CmdError.noZoneAvailable := by
  constructor
  · simp [select_first_zone, List.getLast?_concat]
  · rfl

/-- C7: serializing a `MatchLiteral` always emits the fixed discriminator
`field = "to"` alongside the `value` field and the `type` tag, for every
value including the empty string, and deserialization never reads the
`field` entry back (any value there yields the same matcher). -/
theorem c7_literal_serialization (value f : String) :
    ("field", "to") ∈ serialize_matcher_type
        (EmailRoutingRuleMatcherType.literal value)
    ∧ ("type", "literal") ∈ serialize_matcher_type
        (EmailRoutingRuleMatcherType.literal value)
    ∧ ("value", value) ∈ serialize_matcher_type
        (EmailRoutingRuleMatcherType.literal value)
    ∧ deserialize_matcher_type
        [("type", "literal"), ("value", value), ("field", f)] =
        some (EmailRoutingRuleMatcherType.literal value) := by
  refine ⟨?_, ?_, ?_, ?_⟩
  · simp [serialize_matcher_type]
  · simp [serialize_matcher_type]
  · simp [serialize_matcher_type]
  · rfl

/-- C9: when the rule-list fetch returns no result, deletion falls back to
using the fragment verbatim as the rule id, issues the delete with it, and
ends in an error exactly when the delete call fails or reports
`success = false`. -/
theorem c9_delete_fallback (fragment : String)
    (delete_call : String → Option Bool) :
    resolve_delete_identifier fragment none = DeleteResolution.proceed fragment
    ∧ (handle_delete_rule fragment none delete_call).deletedId = some fragment
    ∧ ((handle_delete_rule fragment none delete_call).errored = true ↔
        delete_call fragment ≠ some true) := by
  refine ⟨rfl, ?_, ?_⟩ <;>
    · unfold handle_delete_rule resolve_delete_identifier
      cases h : delete_call fragment with
      | none => simp [h]
      | some b => cases b <;> simp [h]

/-- C1: the deletion match test holds exactly when the lower-cased rule id
contains the lower-cased fragment, or some matcher of the rule is a literal
whose lower-cased address contains the lower-cased fragment; an `All`
matcher never causes a match. -/
theorem c1_fuzzy_match_test (fragment : String) (rule : EmailRoutingRule) :
    rule_matches fragment rule = true ↔
      (List.IsInfix (lower_chars fragment) (lower_chars rule.id)
        ∨ ∃ value, (⟨EmailRoutingRuleMatcherType.literal value⟩ :
              EmailRoutingRuleMatcher) ∈ rule.matchers
            ∧ List.IsInfix (lower_chars fragment) (lower_chars value)) := by
  unfold rule_matches string_kinda_matches
  rw [Bool.or_eq_true, List.any_eq_true]
  constructor
  · rintro (h | ⟨m, hm, hmatch⟩)
    · exact Or.inl ((contains_sublist_iff _ _).mp h)
    · obtain ⟨mt⟩ := m
      cases mt with
      | all => simp at hmatch
      | literal value =>
        exact Or.inr ⟨value, hm,
          (contains_sublist_iff _ _).mp (by simpa using hmatch)⟩
  · rintro (h | ⟨value, hv, hinf⟩)
    · exact Or.inl ((contains_sublist_iff _ _).mpr h)
    · exact Or.inr ⟨⟨EmailRoutingRuleMatcherType.literal value⟩, hv,
        by simpa using (contains_sublist_iff _ _).mpr hinf⟩

/-- C3: in rule creation, a supplied `All` matcher is kept unchanged
whatever the domain lookup yields; a supplied literal containing `"@"` is
kept verbatim without consulting the lookup; a literal without `"@"` is
rewritten to `value@domain` with the looked-up routing domain. -/
theorem c3_matcher_resolution (value domain : String)
    (domain_lookup : Except CmdError String) :
    resolve_supplied_matcher ⟨EmailRoutingRuleMatcherType.all⟩ domain_lookup =
        Except.ok ⟨EmailRoutingRuleMatcherType.all⟩
    ∧ (string_contains value "@" = true →
        resolve_supplied_matcher ⟨EmailRoutingRuleMatcherType.literal value⟩
            domain_lookup =
          Except.ok ⟨EmailRoutingRuleMatcherType.literal value⟩)
    ∧ (string_contains value "@" = false →
        resolve_supplied_matcher ⟨EmailRoutingRuleMatcherType.literal value⟩
            (Except.ok domain) =
          Except.ok ⟨EmailRoutingRuleMatcherType.literal
            (value ++ "@" ++ domain)⟩) := by
  refine ⟨rfl, ?_, ?_⟩
  · intro h
    simp [resolve_supplied_matcher, h]
  · intro h
    simp [resolve_supplied_matcher, h, Except.map]

/-- Witness for C3 at the specification's example inputs: a full address is
kept verbatim even when the lookup fails, and the bare local-part `bob` is
completed with the looked-up domain `example.com`. -/
theorem c3_matcher_resolution_witness :
    resolve_supplied_matcher
        ⟨EmailRoutingRuleMatcherType.literal "bob@other.com"⟩
        (Except.error CmdError.routingSettingsUnavailable) =
      Except.ok ⟨EmailRoutingRuleMatcherType.literal "bob@other.com"⟩
    ∧ resolve_supplied_matcher ⟨EmailRoutingRuleMatcherType.literal "bob"⟩
        (Except.ok "example.com") =
      Except.ok ⟨EmailRoutingRuleMatcherType.literal
        ("bob" ++ "@" ++ "example.com")⟩ :=
  ⟨(c3_matcher_resolution "bob@other.com" ""
      (Except.error CmdError.routingSettingsUnavailable)).2.1 (by decide),
   (c3_matcher_resolution "bob" "example.com"
      (Except.error CmdError.routingSettingsUnavailable)).2.2 (by decide)⟩

/-- C2: the three-way deletion outcome over a fetched rule list — no match
reports not-found and issues no delete and no error; a unique match issues
the delete with that rule's id; two or more matches report ambiguity and
issue no delete and no error. -/
theorem c2_delete_three_way (fragment : String)
    (rules : List EmailRoutingRule) (delete_call : String → Option Bool) :
    (rules.filter (fun rule => rule_matches fragment rule) = [] →
        handle_delete_rule fragment (some rules) delete_call = ⟨none, false⟩)
    ∧ (∀ r, rules.filter (fun rule => rule_matches fragment rule) = [r] →
        (handle_delete_rule fragment (some rules) delete_call).deletedId =
          some r.id)
    ∧ (2 ≤ (rules.filter (fun rule => rule_matches fragment rule)).length →
        handle_delete_rule fragment (some rules) delete_call =
          ⟨none, false⟩) := by
  refine ⟨?_, ?_, ?_⟩
  · intro h
    simp [handle_delete_rule, resolve_delete_identifier, h]
  · intro r h
    simp only [handle_delete_rule, resolve_delete_identifier, h]
    cases hd : delete_call r.id with
    | none => simp [hd]
    | some b => cases b <;> simp [hd]
  · intro h
    rcases hm : rules.filter (fun rule => rule_matches fragment rule) with
      _ | ⟨a, _ | ⟨b, t⟩⟩
    · rw [hm] at h
      simp at h
    · rw [hm] at h
      simp at h
    · simp [handle_delete_rule, resolve_delete_identifier, hm]

/-- Witness for C2 on the specification's example rules: fragment `zzz`
matches nothing, `a@` uniquely resolves to r1, `x.com` is ambiguous. -/
theorem c2_delete_three_way_witness :
    handle_delete_rule "zzz" (some [sample_rule_a, sample_rule_b])
        (fun _ => some true) = ⟨none, false⟩
    ∧ (handle_delete_rule "a@" (some [sample_rule_a, sample_rule_b])
        (fun _ => some true)).deletedId = some "r1"
    ∧ handle_delete_rule "x.com" (some [sample_rule_a, sample_rule_b])
        (fun _ => some true) = ⟨none, false⟩ :=
  ⟨(c2_delete_three_way "zzz" [sample_rule_a, sample_rule_b]
      (fun _ => some true)).1 (by decide),
   (c2_delete_three_way "a@" [sample_rule_a, sample_rule_b]
      (fun _ => some true)).2.1 sample_rule_a (by decide),
   (c2_delete_three_way "x.com" [sample_rule_a, sample_rule_b]
      (fun _ => some true)).2.2 (by decide)⟩

/-- C10: the empty fragment kinda-matches every rule, so deletion with an
empty identifier resolves to the unique rule when exactly one rule exists,
and reports ambiguity without deleting whenever two or more exist. -/
theorem c10_empty_fragment (r : EmailRoutingRule)
    (rules : List EmailRoutingRule) (delete_call : String → Option Bool)
    (h : 2 ≤ rules.length) :
    rule_matches "" r = true
    ∧ (handle_delete_rule "" (some [r]) delete_call).deletedId = some r.id
    ∧ handle_delete_rule "" (some rules) delete_call = ⟨none, false⟩ := by
  have hall : ∀ rule : EmailRoutingRule, rule_matches "" rule = true := by
    intro rule
    unfold rule_matches string_kinda_matches
    have : lower_chars "" = [] := rfl
    rw [this, contains_sublist_nil, Bool.true_or]
  refine ⟨hall r, ?_, ?_⟩
  · have hf : [r].filter (fun rule => rule_matches "" rule) = [r] := by
      simp [List.filter, hall r]
    simp only [handle_delete_rule, resolve_delete_identifier, hf]
    cases hd : delete_call r.id with
    | none => simp [hd]
    | some b => cases b <;> simp [hd]
  · have hf : rules.filter (fun rule => rule_matches "" rule) = rules :=
      List.filter_eq_self.mpr (fun a _ => hall a)
    match rules, h with
    | a :: b :: t, _ =>
      simp only [handle_delete_rule, resolve_delete_identifier, hf]

/-- Witness for C10: with only r1 present the empty identifier deletes r1;
with r1 and r2 present it reports ambiguity and deletes nothing. -/
theorem c10_empty_fragment_witness :
    rule_matches "" sample_rule_a = true
    ∧ (handle_delete_rule "" (some [sample_rule_a])
        (fun _ => some true)).deletedId = some sample_rule_a.id
    ∧ handle_delete_rule "" (some [sample_rule_a, sample_rule_b])
        (fun _ => some true) = ⟨none, false⟩ :=
  c10_empty_fragment sample_rule_a [sample_rule_a, sample_rule_b]
    (fun _ => some true) (by decide)

/-- C8: the list command's sort orders rules by descending priority, with an
absent priority treated as 0 (the output is a permutation of the fetch,
pairwise ordered), and on the example priorities None, 5, 0, 3 it displays
5, 3, then the absent-priority and 0-priority rules. -/
theorem c8_list_rules_sorted (rules : List EmailRoutingRule) :
    (handle_list_rules_sort rules).Pairwise
        (fun a b => rule_priority b ≤ rule_priority a)
    ∧ (handle_list_rules_sort rules).Perm rules
    ∧ (handle_list_rules_sort priority_sample_rules).map
        (fun rule => rule.priority) = [some 5, some 3, none, some 0] := by
  haveI : IsTotal EmailRoutingRule
      (fun a b => rule_priority b ≤ rule_priority a) :=
    ⟨fun a b => Nat.le_total (rule_priority b) (rule_priority a)⟩
  haveI : IsTrans EmailRoutingRule
      (fun a b => rule_priority b ≤ rule_priority a) :=
    ⟨fun _ _ _ hab hbc => Nat.le_trans hbc hab⟩
  refine ⟨List.sorted_insertionSort _ rules, List.perm_insertionSort _ rules, ?_⟩
  rfl

/-- Counterexample to C5 as stated: at `a = Drop`, rendering gives `"Drop"`,
re-parsing that (case-sensitively, only `"drop"` parses to Drop) gives
`Forward ["Drop"]`, which renders as `"Forward to Drop"`, not `"Drop"`. -/
theorem c5_roundtrip_counterexample :
    ¬ ((action_from_str (action_display ⟨EmailRoutingRuleActionType.drop⟩)).map
          action_display =
        Except.ok (action_display ⟨EmailRoutingRuleActionType.drop⟩)) := by
  decide

/-- C5 amended: for every action in the free-text-representable subset
(Drop, single-destination Forward), re-parsing the rendered text and
rendering again yields the rendered text wrapped as a single-destination
Forward — `"Forward to " ++ render a` — rather than `render a` itself,
because the parser recognises only the exact lowercase `"drop"` while
rendering emits `"Drop"` or `"Forward to ..."`. -/
theorem c5_roundtrip_amended (a : EmailRoutingRuleAction)
    (h : a.action_type = EmailRoutingRuleActionType.drop
      ∨ ∃ d, a.action_type = EmailRoutingRuleActionType.forward [d]) :
    (action_from_str (action_display a)).map action_display =
      Except.ok ("Forward to " ++ action_display a) := by
  obtain ⟨at_⟩ := a
  rcases h with h | ⟨d, h⟩ <;> simp only at h <;> subst h
  · decide
  · have hne : ("Forward to " ++ d) ≠ "drop" := by
      intro hcontra
      have hlen := congrArg String.length hcontra
      rw [String.length_append] at hlen
      rw [show ("Forward to ").length = 11 from rfl,
        show ("drop").length = 4 from rfl] at hlen
      omega
    have hdisp : action_display
        ⟨EmailRoutingRuleActionType.forward [d]⟩ = "Forward to " ++ d := rfl
    rw [hdisp]
    simp [action_from_str, hne, Except.map, action_display, join_strings]

/-- Witness for C5 amended at the concrete input `Drop`. -/
theorem c5_roundtrip_amended_witness :
    (action_from_str (action_display ⟨EmailRoutingRuleActionType.drop⟩)).map
        action_display =
      Except.ok ("Forward to "
        ++ action_display ⟨EmailRoutingRuleActionType.drop⟩) :=
  c5_roundtrip_amended ⟨EmailRoutingRuleActionType.drop⟩ (Or.inl rfl)

/-- Replacing one slot of a duplicate-free list with an element not in the
list keeps it duplicate-free. -/
theorem nodup_set_of_not_mem {α : Type} :
    ∀ (l : List α) (k : Nat) (a : α), l.Nodup → a ∉ l → (l.set k a).Nodup := by
  intro l
  induction l with
  | nil =>
    intro k a _ _
    simp
  | cons b t ih =>
    intro k a hnd hmem
    rw [List.nodup_cons] at hnd
    cases k with
    | zero =>
      rw [List.set]
      rw [List.nodup_cons]
      exact ⟨fun hc => hmem (List.mem_cons_of_mem b hc), hnd.2⟩
    | succ k =>
      rw [List.set]
      rw [List.nodup_cons]
      refine ⟨?_, ih k a hnd.2 (fun hc => hmem (List.mem_cons_of_mem b hc))⟩
      intro hb
      rcases List.mem_or_eq_of_mem_set hb with hb | hb
      · exact hnd.1 hb
      · exact hmem (hb ▸ List.mem_cons_self b t)

/-- The reservoir loop never changes the reservoir's length. -/
theorem reservoir_fold_length (rng : Nat → Nat) :
    ∀ (rest : List Char) (i : Nat) (reservoir : List Char),
      (reservoir_fold rng i reservoir rest).length = reservoir.length := by
  intro rest
  induction rest with
  | nil =>
    intro i reservoir
    rfl
  | cons c cs ih =>
    intro i reservoir
    rw [reservoir_fold, ih, List.length_set]

/-- Every element of the final reservoir comes from the initial reservoir or
from the processed elements. -/
theorem reservoir_fold_mem (rng : Nat → Nat) :
    ∀ (rest : List Char) (i : Nat) (reservoir : List Char) (x : Char),
      x ∈ reservoir_fold rng i reservoir rest → x ∈ reservoir ∨ x ∈ rest := by
  intro rest
  induction rest with
  | nil =>
    intro i reservoir x hx
    exact Or.inl hx
  | cons c cs ih =>
    intro i reservoir x hx
    rw [reservoir_fold] at hx
    rcases ih (i + 1) (reservoir.set (rng i) c) x hx with hx | hx
    · rcases List.mem_or_eq_of_mem_set hx with hx | hx
      · exact Or.inl hx
      · exact Or.inr (hx ▸ List.mem_cons_self c cs)
    · exact Or.inr (List.mem_cons_of_mem c hx)

/-- If the initial reservoir is duplicate-free and disjoint from the
duplicate-free stream of remaining elements, the final reservoir is
duplicate-free — whatever indices the random generator produces. -/
theorem reservoir_fold_nodup (rng : Nat → Nat) :
    ∀ (rest : List Char) (i : Nat) (reservoir : List Char),
      reservoir.Nodup → rest.Nodup → (∀ x ∈ reservoir, x ∉ rest) →
      (reservoir_fold rng i reservoir rest).Nodup := by
  intro rest
  induction rest with
  | nil =>
    intro i reservoir hres _ _
    exact hres
  | cons c cs ih =>
    intro i reservoir hres hrest hdisj
    rw [List.nodup_cons] at hrest
    rw [reservoir_fold]
    refine ih (i + 1) _ ?_ hrest.2 ?_
    · exact nodup_set_of_not_mem reservoir (rng i) c hres
        (fun hc => hdisj c hc (List.mem_cons_self c cs))
    · intro x hx
      rcases List.mem_or_eq_of_mem_set hx with hx | hx
      · exact fun hc => hdisj x hx (List.mem_cons_of_mem c hc)
      · exact hx ▸ hrest.1

/-- The character list underlying a string built from a character list. -/
theorem mk_toList (l : List Char) : (String.mk l).toList = l := rfl

/-- The length of a string built from a character list. -/
theorem mk_length (l : List Char) : (String.mk l).length = l.length := rfl

/-- `choose_multiple` on the 36-character alphabet runs the reservoir loop
seeded with the first 16 characters. -/
theorem choose_multiple_alphabet (rng : Nat → Nat) :
    choose_multiple rng username_alphabet 16 =
      reservoir_fold rng 0 (username_alphabet.take 16)
        (username_alphabet.drop 16) := by
  rw [choose_multiple, if_pos (by decide)]

set_option maxHeartbeats 1000000 in
/-- The generated local-part is duplicate-free for every possible random
draw: `choose_multiple` samples without replacement. -/
theorem random_username_nodup (rng : Nat → Nat) :
    (random_username rng).toList.Nodup := by
  have halpha : username_alphabet.Nodup := by decide
  have hsplit : (username_alphabet.take 16 ++ username_alphabet.drop 16).Nodup := by
    rw [List.take_append_drop]
    exact halpha
  rw [List.nodup_append] at hsplit
  rw [random_username, mk_toList, choose_multiple_alphabet]
  exact reservoir_fold_nodup rng (username_alphabet.drop 16) 0
    (username_alphabet.take 16) hsplit.1 hsplit.2.1
    (fun x hx hx2 => hsplit.2.2 hx hx2)

/-- Counterexample to C4 as stated: no random behaviour can produce a
repeated character in one generated local-part, refuting
"sampled with replacement (so repeated characters are possible)". -/
theorem c4_random_username_counterexample :
    ¬ ∃ rng : Nat → Nat, ¬ (random_username rng).toList.Nodup := by
  rintro ⟨rng, h⟩
  exact h (random_username_nodup rng)

set_option maxHeartbeats 1000000 in
/-- C4 amended: for every random draw the generated local-part has exactly
16 characters, each from the lowercase-alphanumeric alphabet, and — because
rand's `choose_multiple` samples without replacement from the 36-character
alphabet — its characters are pairwise distinct; repeats are impossible. -/
theorem c4_random_username (rng : Nat → Nat) :
    (random_username rng).length = 16
    ∧ (∀ c ∈ (random_username rng).toList, c ∈ username_alphabet)
    ∧ (random_username rng).toList.Nodup := by
  refine ⟨?_, ?_, random_username_nodup rng⟩
  · rw [random_username, mk_length, choose_multiple_alphabet,
      reservoir_fold_length]
    decide
  · intro c hc
    rw [random_username, mk_toList, choose_multiple_alphabet] at hc
    have := reservoir_fold_mem rng (username_alphabet.drop 16) 0
      (username_alphabet.take 16) c hc
    rw [← List.take_append_drop 16 username_alphabet]
    rcases this with h | h
    · exact List.mem_append.mpr (Or.inl h)
    · exact List.mem_append.mpr (Or.inr h)
